import Mathlib

/-!
Verification of the DailySelfie local capture-indexing layer.

The definitions below are a shallow embedding of the Python modules
`core/indexer.py`, `core/metadata.py`, `core/index_api.py`,
`core/storage.py` and `core/capture.py`.

Modelling conventions:

* Python dictionaries are embedded as structures whose fields have type
  `Option (Option α)`: the outer `Option` records whether the key is
  present in the dict, the inner one whether the value is `None`/null.
  `dict.get(k)` is the helper `dget` below (key absent and value `None`
  both yield `none`).
* SQLite rows of the `captures` table are the structure `Row`; columns
  declared `NOT NULL` are plain values, nullable columns are `Option`.
* SQLite's BINARY collation (memcmp over the UTF-8 encoding, used by the
  `ts >= ? AND ts < ?` range query and `ORDER BY ts ASC`) is the
  code-point comparison `clistLe`/`strLe`/`strLt`; `ORDER BY` is embedded
  as `List.insertionSort` over the filtered rows.
* Wall-clock reads (`time.time()`, `datetime.now(...).isoformat()`) are
  threaded explicitly: an `Int` for the float `created_at` column and an
  opaque ISO string for timestamps.
* File-system effects (the append-only `captures.jsonl` audit file, the
  sidecar directory, the photos tree) are explicit state; OS failures of
  the audit append are injected through a boolean oracle, matching the
  `try/except` structure of the source. The `flock` critical sections
  serialize whole operations, so each operation is a single state
  transition here.
-/

set_option maxHeartbeats 1000000

/-- Python `dict.get(k)`: a key that is absent and a key whose value is
`None` both read back as `None`. -/
def dget {α : Type} (x : Option (Option α)) : Option α := x.getD none

/-- Python truthiness of an optional string: `None` and `""` are falsy. -/
def pyStr? (s : Option String) : Option String :=
  match s with
  | some v => if v = "" then none else some v
  | none => none

/-- Zero-padded decimal rendering, Python `f"{n:0wd}"` for natural `n`. -/
def padZ (w : Nat) (n : Nat) : String :=
  let s := toString n
  if s.length < w then String.mk (List.replicate (w - s.length) '0') ++ s else s

/-- memcmp/code-point `≤` on character lists: the BINARY collation SQLite
applies to the stored `ts` strings. -/
def clistLe : List Char → List Char → Bool
  | [], _ => true
  | _ :: _, [] => false
  | a :: as, b :: bs =>
    if a.toNat < b.toNat then true
    else if b.toNat < a.toNat then false
    else clistLe as bs

/-- String `≤` under the stored timestamp representation's ordering. -/
def strLe (a b : String) : Bool := clistLe a.data b.data

/-- String `<` under the stored timestamp representation's ordering. -/
def strLt (a b : String) : Bool := !(strLe b a)

/-- `str.startswith` / glob-prefix test (character-list prefix). -/
def strStartsWith (p s : String) : Bool := p.data.isPrefixOf s.data

/-- `str.endswith` (character-list suffix). -/
def strEndsWith (p s : String) : Bool := p.data.isSuffixOf s.data

/-- A capture/deletion entry dictionary, the `entry` argument of
`Indexer.add_capture` / `IndexAPI.record_capture` and the JSON object of
one `captures.jsonl` line.  Fields are the keys the source reads. -/
structure Entry where
  id : Option (Option String) := none
  ts : Option (Option String) := none
  path : Option (Option String) := none
  width : Option (Option Int) := none
  height : Option (Option Int) := none
  resolution : Option (Option String) := none
  mood : Option (Option String) := none
  notes : Option (Option String) := none
  action : Option (Option String) := none
  reason : Option (Option String) := none
deriving Repr, DecidableEq

/-- One row of the SQLite `captures` table
(`id, ts, path, width, height, resolution, mood, notes, action, created_at`);
`NOT NULL` columns are plain, nullable ones are `Option`. -/
structure Row where
  id : String
  ts : String
  path : String
  width : Option Int
  height : Option Int
  resolution : Option String
  mood : Option String
  notes : Option String
  action : String
  created_at : Int
deriving Repr, DecidableEq

/-- `entry.get("id")` followed by the Python falsiness check of
`Indexer.add_capture` (`if not eid: raise ValueError`). -/
def entryOkId (e : Entry) : Option String := pyStr? (dget e.id)

/-- `entry.get("action", "capture")`: the default applies only when the
key is absent; a key present with value `None` stays `None`. -/
def entryAction (e : Entry) : Option String :=
  match e.action with
  | some v => v
  | none => some "capture"

/-- The row `Indexer.add_capture` stores for `e` at wall-clock `now`,
or `none` when the insert would violate a constraint (missing/falsy id,
or a `NULL` in a `NOT NULL` column). -/
def entryRow? (now : Int) (e : Entry) : Option Row :=
  match entryOkId e, dget e.ts, dget e.path, entryAction e with
  | some eid, some tsv, some pathv, some act =>
    some { id := eid, ts := tsv, path := pathv,
           width := dget e.width, height := dget e.height,
           resolution := dget e.resolution, mood := dget e.mood,
           notes := dget e.notes, action := act, created_at := now }
  | _, _, _, _ => none

/-- `SELECT 1 FROM captures WHERE id = ?` — whether a row with this
primary key exists. -/
def hasId (idx : List Row) (eid : String) : Bool := idx.any (fun r => r.id == eid)

/-- `INSERT OR REPLACE` keyed by the `id` primary key: replace the row
sharing the key, else append. -/
def upsertRow (idx : List Row) (row : Row) : List Row :=
  if hasId idx row.id then idx.map (fun r => if r.id == row.id then row else r)
  else idx ++ [row]

/-- `Indexer.add_capture(entry)` at wall-clock `now` (the `time.time()`
read the method performs): validates the id, then executes the
`INSERT OR REPLACE`; errors model the raised
`ValueError`/`sqlite3.IntegrityError`. -/
def addCapture (now : Int) (idx : List Row) (e : Entry) : Except String (List Row) :=
  match entryOkId e with
  | none => .error "entry must contain 'id' key"
  | some _ =>
    match entryRow? now e with
    | some row => .ok (upsertRow idx row)
    | none => .error "NOT NULL constraint failed"

/-- `Indexer.get_capture_by_id`: `SELECT * FROM captures WHERE id = ? LIMIT 1`. -/
def getCaptureById (idx : List Row) (eid : String) : Option Row :=
  idx.find? (fun r => r.id == eid)

/-- `Indexer.count_rows`: `SELECT COUNT(*) FROM captures`. -/
def countRows (idx : List Row) : Nat := idx.length

/-- `f"{year:04d}-{month:02d}-01T00:00:00"`, the inclusive lower month
boundary of `Indexer.get_captures_by_month`. -/
def monthStartStr (year month : Nat) : String :=
  padZ 4 year ++ "-" ++ padZ 2 month ++ "-01T00:00:00"

/-- The exclusive upper month boundary of `Indexer.get_captures_by_month`,
with the `month == 12` branch rolling over to the next year. -/
def monthEndStr (year month : Nat) : String :=
  if month == 12 then padZ 4 (year + 1) ++ "-01-01T00:00:00"
  else padZ 4 year ++ "-" ++ padZ 2 (month + 1) ++ "-01T00:00:00"

/-- Ordering of rows by their stored `ts` string — the `ORDER BY ts ASC`
of the month query. -/
def tsLeP (a b : Row) : Prop := strLe a.ts b.ts = true

instance : DecidableRel tsLeP := fun a b =>
  inferInstanceAs (Decidable (strLe a.ts b.ts = true))

/-- `Indexer.get_captures_by_month`:
`SELECT * FROM captures WHERE ts >= ? AND ts < ? AND action='capture' ORDER BY ts ASC`. -/
def getCapturesByMonth (idx : List Row) (year month : Nat) : List Row :=
  let s := monthStartStr year month
  let e := monthEndStr year month
  List.insertionSort tsLeP
    (idx.filter (fun r => strLe s r.ts && strLt r.ts e && r.action == "capture"))

/-- A sidecar JSON dictionary (`<data_dir>/metadata/<id>.json`), restricted
to the keys the source reads and writes; outer `Option` is key presence,
inner `Option` is a JSON null. -/
structure MetaDict where
  idK : Option (Option String) := none
  mood : Option (Option String) := none
  notes : Option (Option String) := none
  edited_at : Option (Option String) := none
deriving Repr, DecidableEq

/-- Python truthiness of the sidecar dict (`if not existing_meta`,
`meta if meta else None`): true when at least one key is present. -/
def MetaDict.truthy (m : MetaDict) : Bool :=
  m.idK.isSome || m.mood.isSome || m.notes.isSome || m.edited_at.isSome

/-- `Indexer.update_meta(eid, meta)`: one `UPDATE` per supplied editable
column (`mood`, `notes`), a no-op when neither key is supplied; an
`UPDATE` whose `WHERE id = ?` matches no row changes nothing and does
not raise. -/
def indexerUpdateMeta (idx : List Row) (eid : String) (meta : MetaDict) : List Row :=
  if !meta.truthy then idx
  else idx.map (fun r =>
    if r.id == eid then
      { r with
        mood := if meta.mood.isSome then dget meta.mood else r.mood,
        notes := if meta.notes.isSome then dget meta.notes else r.notes }
    else r)

/-- The sidecar directory `<data_dir>/metadata/`, an association of
capture ids to the sidecar JSON file contents. -/
abbrev Sidecars := List (String × MetaDict)

/-- `read_meta(data_dir, eid)`: the parsed sidecar, or the empty dict when
the file is absent (or malformed — the source swallows parse errors). -/
def readMeta (sc : Sidecars) (eid : String) : MetaDict :=
  match sc.find? (fun kv => kv.1 == eid) with
  | some kv => kv.2
  | none => {}

/-- `write_meta` fills in `edited_at` when the caller's dict lacks the key,
using the `datetime.now(timezone.utc).isoformat()` read `nowIso`. -/
def fillEditedAt (meta : MetaDict) (nowIso : String) : MetaDict :=
  if meta.edited_at.isSome then meta else { meta with edited_at := some (some nowIso) }

/-- `write_meta(data_dir, eid, meta)`: atomic whole-file replacement of the
sidecar for `eid` (temp file + rename overwrites any previous content). -/
def writeMeta (sc : Sidecars) (eid : String) (meta : MetaDict) (nowIso : String) : Sidecars :=
  let m := fillEditedAt meta nowIso
  if sc.any (fun kv => kv.1 == eid) then
    sc.map (fun kv => if kv.1 == eid then (eid, m) else kv)
  else sc ++ [(eid, m)]

/-- `delete_meta(data_dir, eid)`: unlink the sidecar if present, no-op
otherwise. -/
def deleteMeta (sc : Sidecars) (eid : String) : Sidecars :=
  sc.filter (fun kv => kv.1 != eid)

/-- The merged record `merge_db_and_meta` returns: a plain dict; every
field is optional because a `None` DB argument yields a dict holding only
the three editable keys. -/
structure Merged where
  id : Option String := none
  ts : Option String := none
  path : Option String := none
  width : Option Int := none
  height : Option Int := none
  resolution : Option String := none
  mood : Option String := none
  notes : Option String := none
  action : Option String := none
  created_at : Option Int := none
  edited_at : Option String := none
deriving Repr, DecidableEq

/-- `merge_db_and_meta(db_entry, meta)`: shallow-copies the DB row, then
for each of `mood`, `notes`, `edited_at` takes the sidecar value when the
key is present and non-null (`if k in meta and meta[k] is not None`) and
otherwise keeps the copied value, defaulting the key to `None`
(`merged.setdefault(k, None)`). -/
def mergeDbAndMeta (db : Option Row) (meta : MetaDict) : Merged :=
  let base : Merged :=
    match db with
    | none => {}
    | some r =>
      { id := some r.id, ts := some r.ts, path := some r.path,
        width := r.width, height := r.height, resolution := r.resolution,
        mood := r.mood, notes := r.notes, action := some r.action,
        created_at := some r.created_at, edited_at := none }
  { base with
    mood := match dget meta.mood with | some v => some v | none => base.mood,
    notes := match dget meta.notes with | some v => some v | none => base.notes,
    edited_at := match dget meta.edited_at with | some v => some v | none => base.edited_at }

/-- Modelled from the spec's Merged Record rule, for comparison with the
source's `merge_db_and_meta`: the sidecar value wins exactly when it is
present and non-null, otherwise the Index value is kept. -/
def specSidecarWins (sidecarField : Option (Option String)) (indexField : Option String) :
    Option String :=
  match sidecarField with
  | some (some v) => some v
  | _ => indexField

/-- One line of the audit file `captures.jsonl` as `migrate_from_jsonl`
sees it after `json.loads`; `typ` embeds the JSON key `"type"`. -/
structure JsonRec where
  id : Option (Option String) := none
  ts : Option (Option String) := none
  path : Option (Option String) := none
  width : Option (Option Int) := none
  height : Option (Option Int) := none
  resolution : Option (Option String) := none
  mood : Option (Option String) := none
  notes : Option (Option String) := none
  action : Option (Option String) := none
  typ : Option (Option String) := none
deriving Repr, DecidableEq

/-- `pathlib.Path(p).stem`: the final path component with its last
extension removed (a suffix exists only when the last dot is neither the
first nor the last character of the name). -/
def pathStem (p : String) : String :=
  let name := (p.splitOn "/").getLastD ""
  let dots := (List.range name.length).filter (fun i => name.data.getD i ' ' == '.')
  match dots.getLast? with
  | some i => if 0 < i ∧ i + 1 < name.length then (name.data.take i).asString else name
  | none => name

/-- The entry `migrate_from_jsonl` builds for one parsed line, or `none`
when the record is skipped for lacking a derivable id
(`eid = obj.get("id") or (Path(obj.get("path","")).stem if obj.get("path") else None)`;
`if not eid: continue`). All dict keys of the built entry are present. -/
def migLineEntry (obj : JsonRec) : Option Entry :=
  let eid :=
    match pyStr? (dget obj.id) with
    | some v => some v
    | none =>
      match pyStr? (dget obj.path) with
      | some ps => some (pathStem ps)
      | none => none
  match pyStr? eid with
  | none => none
  | some e =>
    some { id := some (some e), ts := some (dget obj.ts), path := some (dget obj.path),
           width := some (dget obj.width), height := some (dget obj.height),
           resolution := some (dget obj.resolution), mood := some (dget obj.mood),
           notes := some (dget obj.notes),
           action := some (match obj.action with
                           | some v => v
                           | none => match obj.typ with
                                     | some v => v
                                     | none => some "capture"),
           reason := none }

/-- Accumulator of `Indexer.migrate_from_jsonl`: imported-row count, the
number of `add_capture` calls so far (each such call reads `time.time()`
once), and the evolving table. -/
structure MigSt where
  count : Nat
  calls : Nat
  idx : List Row
deriving Repr, DecidableEq

/-- One loop iteration of `migrate_from_jsonl`: a `none` line (blank or
malformed JSON) is skipped, a record with no derivable id is skipped, and
a per-row `add_capture` exception is swallowed (`except: continue`). -/
def migrateStep (clk : Nat → Int) (st : MigSt) (line : Option JsonRec) : MigSt :=
  match line with
  | none => st
  | some obj =>
    match migLineEntry obj with
    | none => st
    | some entry =>
      match addCapture (clk st.calls) st.idx entry with
      | .ok idx2 => { count := st.count + 1, calls := st.calls + 1, idx := idx2 }
      | .error _ => { st with calls := st.calls + 1 }

/-- `Indexer.migrate_from_jsonl(jsonl_path)`: replays every audit line
through the upsert and returns the number imported together with the
resulting table. `clk` supplies the `time.time()` value of the i-th
`add_capture` call. -/
def migrateFromJsonl (clk : Nat → Int) (lines : List (Option JsonRec)) (idx : List Row) :
    Nat × List Row :=
  let f := lines.foldl (migrateStep clk) { count := 0, calls := 0, idx := idx }
  (f.count, f.idx)

/-- The data directory state the `IndexAPI` operations mutate under the
file lock: the append-only audit file, the SQLite table, and the sidecar
directory. -/
structure AppState where
  audit : List Entry
  index : List Row
  sidecars : Sidecars
deriving Repr, DecidableEq

/-- The wall-clock reads one `IndexAPI` operation performs: `real` is the
`time.time()` float consumed by `add_capture`, `iso` the
`datetime.now(timezone.utc).isoformat()` string. -/
structure Clock where
  real : Int
  iso : String
deriving Repr, DecidableEq

/-- The dict `get_item`/`update_meta` hand back: either a merged record or,
when the id is absent from the Index, the raw sidecar dict. -/
inductive ItemResult where
  | merged (m : Merged)
  | metaOnly (m : MetaDict)
deriving Repr, DecidableEq

/-- `IndexAPI.get_item(eid)`: the Index row merged with the sidecar, the
sidecar alone when the row is missing and the sidecar is truthy, and
`None` otherwise. -/
def getItem (st : AppState) (eid : String) : Option ItemResult :=
  match getCaptureById st.index eid with
  | none =>
    let meta := readMeta st.sidecars eid
    if meta.truthy then some (.metaOnly meta) else none
  | some row => some (.merged (mergeDbAndMeta (some row) (readMeta st.sidecars eid)))

/-- `IndexAPI.record_capture(entry)` under the lock. `auditOk` injects the
outcome of the `append_capture_index` filesystem append (step 1): when it
fails, the wrapped exception propagates before the DB upsert runs.  The
DB upsert failure likewise propagates (step 2). Step 3 writes a stub
sidecar only when `read_meta` is falsy; its own failure is swallowed in
the source and the filesystem write itself cannot fail in this model.
Returns the final state and the merged record or the raised error. -/
def recordCapture (auditOk : Bool) (clk : Clock) (st : AppState) (entry : Entry) :
    AppState × Except String Merged :=
  match entry.id with
  | none => (st, .error "entry must contain 'id'")
  | some innerId =>
    if !auditOk then (st, .error "Failed to append audit line")
    else
      let st1 : AppState := { st with audit := st.audit ++ [entry] }
      match addCapture clk.real st1.index entry with
      | .error e => (st1, .error ("Failed to write index DB: " ++ e))
      | .ok idx2 =>
        -- add_capture succeeded, so entry["id"] is a non-empty string here
        let eid := innerId.getD ""
        let st2 : AppState := { st1 with index := idx2 }
        let existingMeta := readMeta st2.sidecars eid
        let st3 : AppState :=
          if !existingMeta.truthy then
            { st2 with
              sidecars := writeMeta st2.sidecars eid
                { idK := some (some eid), mood := some none, notes := some none,
                  edited_at := some (some clk.iso) } clk.iso }
          else st2
        (st3, .ok (mergeDbAndMeta (getCaptureById st3.index eid) (readMeta st3.sidecars eid)))

/-- The dict `IndexAPI.record_deletion` returns. -/
structure DeletionSummary where
  id : String
  ts : String
  action : String
  reason : String
deriving Repr, DecidableEq

/-- The deletion entry `IndexAPI.record_deletion` builds: empty `path`,
`action='delete'`, the caller's reason, a fresh ISO timestamp. -/
def deletionEntry (clk : Clock) (eid reason : String) : Entry :=
  { id := some (some eid), ts := some (some clk.iso), path := some (some ""),
    action := some (some "delete"), reason := some (some reason) }

/-- `IndexAPI.record_deletion(eid, reason)` under the lock: append the
deletion line to the audit (failure propagates), upsert the deletion row
(failure propagates), then best-effort delete the sidecar. -/
def recordDeletion (auditOk : Bool) (clk : Clock) (st : AppState) (eid reason : String) :
    AppState × Except String DeletionSummary :=
  if eid = "" then (st, .error "eid required")
  else
    let entry := deletionEntry clk eid reason
    if !auditOk then (st, .error "Failed to append deletion audit")
    else
      let st1 : AppState := { st with audit := st.audit ++ [entry] }
      match addCapture clk.real st1.index entry with
      | .error e => (st1, .error ("Failed to write deletion to DB: " ++ e))
      | .ok idx2 =>
        let st2 : AppState :=
          { st1 with index := idx2, sidecars := deleteMeta st1.sidecars eid }
        (st2, .ok { id := eid, ts := clk.iso, action := "delete", reason := reason })

/-- `IndexAPI.update_meta(eid, meta)`: reject falsy arguments, write the
sidecar wholesale (with `edited_at` auto-filled), reflect supplied
`mood`/`notes` into the DB columns, and return `get_item(eid)` on the
resulting state. -/
def updateMeta (clk : Clock) (st : AppState) (eid : String) (meta : MetaDict) :
    AppState × Except String (Option ItemResult) :=
  if eid == "" || !meta.truthy then (st, .error "eid and meta required")
  else
    let st1 : AppState := { st with sidecars := writeMeta st.sidecars eid meta clk.iso }
    let dbMeta : MetaDict :=
      { mood := if meta.mood.isSome then some (dget meta.mood) else none,
        notes := if meta.notes.isSome then some (dget meta.notes) else none }
    let st2 : AppState :=
      if dbMeta.truthy then { st1 with index := indexerUpdateMeta st1.index eid dbMeta }
      else st1
    (st2, .ok (getItem st2 eid))

/-- One entry of the photos tree `root/YYYY/MM/`: its year and month path
components, its name, and whether it is a directory (pathlib's `glob`
also matches directories; `delete_path` refuses them). Entries directly
under the year folder are not represented — `list_images_for_date` skips
non-directory children of the year folder and empty month folders
contribute nothing. -/
structure PFile where
  year : String
  month : String
  name : String
  isDir : Bool
deriving Repr, DecidableEq

/-- A calendar date as `capture_once`/`last_image_for_date` use it. -/
structure PyDate where
  y : Nat
  m : Nat
  d : Nat
deriving Repr, DecidableEq

/-- `date.strftime("%Y")`. -/
def dateYearStr (dt : PyDate) : String := padZ 4 dt.y

/-- `date.strftime("%Y-%m-%d")` — also `str(ts.date())`. -/
def datePrefixStr (dt : PyDate) : String :=
  padZ 4 dt.y ++ "-" ++ padZ 2 dt.m ++ "-" ++ padZ 2 dt.d

/-- The glob pattern `f"{prefix}_*.jpg"` of `list_images_for_date`:
`*` matches any (possibly empty) run of characters. -/
def globMatchesDate (pre : String) (name : String) : Bool :=
  strStartsWith (pre ++ "_") name && strEndsWith ".jpg" name
    && pre.length + 5 ≤ name.length

/-- Ordering of strings for the `sorted(...)` calls of storage.py. -/
def strLeP (a b : String) : Prop := strLe a b = true

instance : DecidableRel strLeP := fun a b =>
  inferInstanceAs (Decidable (strLe a b = true))

/-- Ordering of photo entries by filename, for `sorted(month_dir.glob(...))`. -/
def nameLeP (a b : PFile) : Prop := strLe a.name b.name = true

instance : DecidableRel nameLeP := fun a b =>
  inferInstanceAs (Decidable (strLe a.name b.name = true))

/-- `list_images_for_date(root, date)`: for each sorted month directory of
`root/YYYY/`, the sorted entries matching `YYYY-MM-DD_*.jpg`, concatenated. -/
def listImagesForDate (fs : List PFile) (dt : PyDate) : List PFile :=
  let year := dateYearStr dt
  let pre := datePrefixStr dt
  if !(fs.any (fun f => f.year == year)) then []
  else
    let months := List.insertionSort strLeP
      (((fs.filter (fun f => f.year == year)).map (fun f => f.month)).dedup)
    months.flatMap (fun mo =>
      List.insertionSort nameLeP
        (fs.filter (fun f => f.year == year && f.month == mo && globMatchesDate pre f.name)))

/-- `last_image_for_date(root, date)`: the last element of the listing. -/
def lastImageForDate (fs : List PFile) (dt : PyDate) : Option PFile :=
  (listImagesForDate fs dt).getLast?

/-- `delete_path(path)`: `(success, error_message)` plus the resulting
tree. `exists()` then `is_dir()` then `unlink()`. -/
def deletePath (fs : List PFile) (p : PFile) : (Bool × Option String) × List PFile :=
  if !(fs.contains p) then ((false, some "path_not_found"), fs)
  else if p.isDir then ((false, some "path_is_directory"), fs)
  else ((true, none), fs.erase p)

/-- `delete_last_image_for_date(root, date)`:
`(success, error_message, deleted_path)` plus the resulting tree. -/
def deleteLastImageForDate (fs : List PFile) (dt : PyDate) :
    (Bool × Option String × Option PFile) × List PFile :=
  match lastImageForDate fs dt with
  | none => ((false, some "no_image", none), fs)
  | some last =>
    match deletePath fs last with
    | ((true, _), fs2) => ((true, none, some last), fs2)
    | ((false, err), fs2) => ((false, err, some last), fs2)

/-- The timestamp `capture_once` reads once at entry
(`datetime.now(timezone.utc)`); `iso` stands for its `isoformat()`
rendering, which the claims treat as opaque. -/
structure PyDateTime where
  date : PyDate
  h : Nat
  mi : Nat
  s : Nat
  iso : String
deriving Repr, DecidableEq

/-- `make_date_time_filename(ts)`: `YYYY-MM-DD_HHMMSS.jpg`. -/
def makeDateTimeFilename (ts : PyDateTime) : String :=
  datePrefixStr ts.date ++ "_" ++ padZ 2 ts.h ++ padZ 2 ts.mi ++ padZ 2 ts.s ++ ".jpg"

/-- `str(root/YYYY/MM/name)`. -/
def pfilePathStr (root : String) (f : PFile) : String :=
  root ++ "/" ++ f.year ++ "/" ++ f.month ++ "/" ++ f.name

/-- `atomic_write` into `root/YYYY/MM/`: temp file + rename replaces any
entry at the destination path. -/
def atomicWritePhoto (fs : List PFile) (f : PFile) : List PFile :=
  (fs.filter (fun g => !(g.year == f.year && g.month == f.month && g.name == f.name))) ++ [f]

/-- The external collaborators and OS outcomes `capture_once` depends on:
the camera frame (as its pixel `(height, width)` shape; `none` covers a
camera/encode exception), whether `save_image_bytes` fails and with what
message, the outcomes of the two audit appends (both are wrapped in
`try/except` by `capture_once`), and the wall clock the deletion entry
reads. -/
structure CapEnv where
  cam : Option (Nat × Nat)
  saveErr : Option String
  captureAppendOk : Bool
  deletionAppendOk : Bool
  delIso : String
deriving Repr, DecidableEq

/-- The photos tree plus the `captures.jsonl` audit file, the state
`capture_once` touches (it never touches the SQLite Index). -/
structure CapState where
  photos : List PFile
  audit : List Entry
deriving Repr, DecidableEq

/-- The result dict of `capture_once`. -/
structure CaptureResult where
  success : Bool
  path : Option String
  timestamp : Option String
  error : Option String
  id : Option String
deriving Repr, DecidableEq

/-- The tail of `capture_once` after the one-per-day check: read a frame,
encode, save, append the capture line (append failure is swallowed), and
return the success dict. -/
def captureProceed (env : CapEnv) (root : String) (ts : PyDateTime) (st : CapState) :
    CapState × CaptureResult :=
  match env.cam with
  | none =>
    (st, { success := false, path := none, timestamp := none,
           error := some "capture failed", id := none })
  | some (hpx, wpx) =>
    match env.saveErr with
    | some e =>
      (st, { success := false, path := none, timestamp := some ts.iso,
             error := some ("save failed: " ++ e), id := none })
    | none =>
      let fname := makeDateTimeFilename ts
      let pf : PFile :=
        { year := padZ 4 ts.date.y, month := padZ 2 ts.date.m, name := fname, isDir := false }
      let photos2 := atomicWritePhoto st.photos pf
      let savedPath := pfilePathStr root pf
      let idTok := pathStem fname
      let ientry : Entry :=
        { ts := some (some ts.iso), path := some (some savedPath), id := some (some idTok),
          width := some (some (Int.ofNat wpx)), height := some (some (Int.ofNat hpx)),
          resolution := some (if wpx ≠ 0 ∧ hpx ≠ 0
                              then some (toString wpx ++ "x" ++ toString hpx) else none),
          mood := some none, action := some (some "capture") }
      let audit2 := if env.captureAppendOk then st.audit ++ [ientry] else st.audit
      ({ photos := photos2, audit := audit2 },
       { success := true, path := some savedPath, timestamp := some ts.iso,
         error := none, id := some idTok })

/-- `capture_once(app_paths, ..., allow_retake)`: the one-per-day check —
an existing same-day photo with retake disallowed returns the structured
"already captured" dict without touching anything; with retake allowed the
existing photo is deleted and a deletion line appended (best effort)
before proceeding. -/
def captureOnce (env : CapEnv) (root : String) (ts : PyDateTime) (allowRetake : Bool)
    (st : CapState) : CapState × CaptureResult :=
  match lastImageForDate st.photos ts.date with
  | some existing =>
    if !allowRetake then
      (st, { success := false, path := some (pfilePathStr root existing),
             timestamp := some ts.iso,
             error := some ("photo already exists for " ++ datePrefixStr ts.date ++ ": "
                            ++ pfilePathStr root existing),
             id := none })
    else
      let res := deleteLastImageForDate st.photos ts.date
      let st2 : CapState :=
        match res with
        | ((true, _, some deleted), photos2) =>
          let dentry : Entry :=
            { ts := some (some env.delIso), action := some (some "delete"),
              path := some (some (pfilePathStr root deleted)),
              reason := some (some "retake"), id := some (some (pathStem deleted.name)) }
          if env.deletionAppendOk then { photos := photos2, audit := st.audit ++ [dentry] }
          else { photos := photos2, audit := st.audit }
        | ((_, _, _), photos2) => { st with photos := photos2 }
      captureProceed env root ts st2
  | none => captureProceed env root ts st

/-- Verification-side helper: the primary key a given audit line would
insert under, independent of the clock and of the current table (`none`
when the line is skipped or its insert raises). -/
def lineRowId (line : Option JsonRec) : Option String :=
  match line with
  | none => none
  | some obj =>
    match migLineEntry obj with
    | none => none
    | some e => (entryRow? 0 e).map (fun r => r.id)

/-- Concrete entry used to refute literal upsert idempotence. -/
def upsertCexEntry : Entry :=
  { id := some (some "2025-06-01_080000")
    ts := some (some "2025-06-01T08:00:00+00:00")
    path := some (some "/photos/2025/06/2025-06-01_080000.jpg") }

/-- The row the first `add_capture` of `upsertCexEntry` stores at clock 0. -/
def upsertCexRow0 : Row :=
  { id := "2025-06-01_080000", ts := "2025-06-01T08:00:00+00:00",
    path := "/photos/2025/06/2025-06-01_080000.jpg",
    width := none, height := none, resolution := none, mood := none,
    notes := none, action := "capture", created_at := 0 }

/-- The row the second, identical `add_capture` stores at clock 1. -/
def upsertCexRow1 : Row :=
  { upsertCexRow0 with created_at := 1 }

/-- Sorting keys are total: code-point comparison of two character lists
succeeds in at least one direction. -/
instance : IsTotal Row tsLeP where
  total := by
    intro a b
    unfold tsLeP strLe
    generalize a.ts.data = x
    generalize b.ts.data = y
    induction x generalizing y with
    | nil => left; rfl
    | cons c cs ih =>
      cases y with
      | nil => right; rfl
      | cons d ds =>
        by_cases h1 : c.toNat < d.toNat
        · left; simp [clistLe, h1]
        · by_cases h2 : d.toNat < c.toNat
          · right; simp [clistLe, h2]
          · rcases ih ds with h | h
            · left; simp [clistLe, h1, h2, h]
            · right; simp [clistLe, h1, h2, h]

/-- Code-point comparison of character lists is transitive. -/
instance : IsTrans Row tsLeP where
  trans := by
    intro a b c hab hbc
    unfold tsLeP strLe at *
    generalize a.ts.data = x at hab ⊢
    generalize b.ts.data = y at hab hbc
    generalize c.ts.data = z at hbc ⊢
    induction x generalizing y z with
    | nil => rfl
    | cons cx xs ih =>
      cases y with
      | nil => simp [clistLe] at hab
      | cons cy ys =>
        cases z with
        | nil => simp [clistLe] at hbc
        | cons cz zs =>
          by_cases hxy1 : cx.toNat < cy.toNat
          · by_cases hyz1 : cy.toNat < cz.toNat
            · have : cx.toNat < cz.toNat := Nat.lt_trans hxy1 hyz1
              simp [clistLe, this]
            · by_cases hyz2 : cz.toNat < cy.toNat
              · simp [clistLe, hyz1, hyz2] at hbc
              · have : cx.toNat < cz.toNat := by omega
                simp [clistLe, this]
          · by_cases hxy2 : cy.toNat < cx.toNat
            · simp [clistLe, hxy1, hxy2] at hab
            · by_cases hyz1 : cy.toNat < cz.toNat
              · have : cx.toNat < cz.toNat := by omega
                simp [clistLe, this]
              · by_cases hyz2 : cz.toNat < cy.toNat
                · simp [clistLe, hyz1, hyz2] at hbc
                · have hx1 : ¬ cx.toNat < cz.toNat := by omega
                  have hx2 : ¬ cz.toNat < cx.toNat := by omega
                  simp [clistLe, hxy1, hxy2] at hab
                  simp [clistLe, hyz1, hyz2] at hbc
                  simp [clistLe, hx1, hx2]
                  exact ih ys hab zs hbc




/-! ### Helper lemmas about the upsert and the primary-key lookup -/

theorem hasId_of_getById {idx : List Row} {eid : String} {r : Row}
    (h : getCaptureById idx eid = some r) : hasId idx eid = true := by
  unfold getCaptureById at h
  have hmem := List.mem_of_find?_eq_some h
  have hpred := List.find?_some h
  exact List.any_eq_true.mpr ⟨r, hmem, hpred⟩

theorem getById_eq_none_iff {idx : List Row} {eid : String} :
    getCaptureById idx eid = none ↔ ∀ r ∈ idx, (r.id == eid) = false := by
  unfold getCaptureById
  simp only [List.find?_eq_none, Bool.not_eq_true]

theorem getById_upsert (idx : List Row) (row : Row) :
    getCaptureById (upsertRow idx row) row.id = some row := by
  unfold upsertRow
  by_cases h : hasId idx row.id = true
  · simp only [h, if_true]
    induction idx with
    | nil => simp [hasId] at h
    | cons r rs ih =>
      rw [List.map_cons]
      by_cases hr : (r.id == row.id) = true
      · have hrepl : (if r.id == row.id then row else r) = row := by rw [if_pos hr]
        rw [hrepl]
        unfold getCaptureById
        simp only [List.find?_cons, beq_self_eq_true, cond_true]
      · have hrepl : (if r.id == row.id then row else r) = r := by rw [if_neg hr]
        rw [hrepl]
        have hrf : (r.id == row.id) = false := by
          exact Bool.not_eq_true _ |>.mp hr
        have hrs : hasId rs row.id = true := by
          unfold hasId at h ⊢
          simp only [List.any_cons, hrf, Bool.false_or] at h
          exact h
        have := ih hrs
        unfold getCaptureById at this ⊢
        simp only [List.find?_cons, hrf, cond_false]
        exact this
  · simp only [h, if_false, Bool.false_eq_true]
    have hnone : getCaptureById idx row.id = none := by
      rw [getById_eq_none_iff]
      intro r hm
      unfold hasId at h
      simp only [List.any_eq_true, not_exists, not_and] at h
      by_contra hc
      exact absurd (by simpa using hc : (r.id == row.id) = true) (by simpa using h r hm)
    unfold getCaptureById at *
    rw [List.find?_append, hnone]
    simp [List.find?]

theorem length_upsert_of_hasId {idx : List Row} {row : Row}
    (h : hasId idx row.id = true) : (upsertRow idx row).length = idx.length := by
  unfold upsertRow
  rw [if_pos h, List.length_map]

theorem hasId_upsert_self (idx : List Row) (row : Row) :
    hasId (upsertRow idx row) row.id = true :=
  hasId_of_getById (getById_upsert idx row)

theorem hasId_upsert_mono {idx : List Row} {i : String} (row : Row)
    (h : hasId idx i = true) : hasId (upsertRow idx row) i = true := by
  unfold upsertRow
  by_cases hh : hasId idx row.id = true
  · rw [if_pos hh]
    unfold hasId at h ⊢
    rw [List.any_map]
    rcases List.any_eq_true.mp h with ⟨r, hm, hp⟩
    have hpi : r.id = i := by simpa using hp
    refine List.any_eq_true.mpr ⟨r, hm, ?_⟩
    simp only [Function.comp_apply]
    by_cases hr : r.id = row.id
    · rw [if_pos (by simpa using hr)]
      rw [← hr, hpi]
      simp
    · rw [if_neg (by simpa using hr)]
      simpa using hpi
  · rw [if_neg hh]
    unfold hasId at h ⊢
    rw [List.any_append, h, Bool.true_or]

/-! ### Helper lemmas about add_capture -/

theorem entryRow?_id {t : Int} {e : Entry} {row : Row}
    (h : entryRow? t e = some row) : entryOkId e = some row.id := by
  unfold entryRow? at h
  cases h1 : entryOkId e <;> rw [h1] at h
  · simp at h
  · cases h2 : dget e.ts <;> rw [h2] at h
    · simp at h
    · cases h3 : dget e.path <;> rw [h3] at h
      · simp at h
      · cases h4 : entryAction e <;> rw [h4] at h
        · simp at h
        · simp only [Option.some.injEq] at h
          rw [← h]

theorem entryRow?_time (t : Int) (e : Entry) :
    entryRow? t e = (entryRow? 0 e).map (fun r => { r with created_at := t }) := by
  unfold entryRow?
  cases entryOkId e <;> cases dget e.ts <;> cases dget e.path <;> cases entryAction e <;> rfl

theorem addCapture_ok_inv {t : Int} {idx idx2 : List Row} {e : Entry}
    (h : addCapture t idx e = .ok idx2) :
    ∃ row, entryRow? t e = some row ∧ idx2 = upsertRow idx row := by
  unfold addCapture at h
  cases h1 : entryOkId e <;> rw [h1] at h
  · simp at h
  · cases h2 : entryRow? t e <;> rw [h2] at h
    · simp at h
    · simp only [Except.ok.injEq] at h
      exact ⟨_, rfl, h.symm⟩

theorem addCapture_ok_of_row {t : Int} {e : Entry} {row : Row} (idx : List Row)
    (h : entryRow? t e = some row) : addCapture t idx e = .ok (upsertRow idx row) := by
  unfold addCapture
  rw [entryRow?_id h, h]

/-! ### Claim C2 -/

/-- C2: in `IndexAPI.record_capture`, a failing audit append
(`append_capture_index` raising inside step 1) surfaces as a hard
`RuntimeError` to the caller and aborts the operation before the Index
upsert runs: the whole state — in particular the Index — is left
unchanged, and the failure is never silently swallowed. -/
theorem recordCapture_audit_failure_aborts (clk : Clock) (st : AppState) (entry : Entry)
    (innerId : Option String) (hid : entry.id = some innerId) :
    (recordCapture false clk st entry).1 = st ∧
    (recordCapture false clk st entry).1.index = st.index ∧
    (recordCapture false clk st entry).2 = .error "Failed to append audit line" := by
  unfold recordCapture
  rw [hid]
  exact ⟨rfl, rfl, rfl⟩

/-- Witness for C2 at a concrete entry and state. -/
theorem recordCapture_audit_failure_aborts_witness :
    (recordCapture false { real := 7, iso := "W" }
        { audit := [], index := [], sidecars := [] } upsertCexEntry).1 =
      { audit := [], index := [], sidecars := [] } ∧
    (recordCapture false { real := 7, iso := "W" }
        { audit := [], index := [], sidecars := [] } upsertCexEntry).1.index = [] ∧
    (recordCapture false { real := 7, iso := "W" }
        { audit := [], index := [], sidecars := [] } upsertCexEntry).2 =
      .error "Failed to append audit line" :=
  recordCapture_audit_failure_aborts { real := 7, iso := "W" }
    { audit := [], index := [], sidecars := [] } upsertCexEntry
    (some "2025-06-01_080000") rfl

/-! ### Claim C3 -/

/-- C3 counterexample: replaying the identical entry through
`Indexer.add_capture` keeps `count()` unchanged, but the row returned by
`get_by_id` is NOT unchanged — the replayed `INSERT OR REPLACE` rewrites
`created_at` with the second call's `time.time()` value (0 versus 1
here), so the second call is not a pure no-op on the stored row. -/
theorem addCapture_twice_changes_created_at :
    addCapture 0 [] upsertCexEntry = .ok [upsertCexRow0] ∧
    addCapture 1 [upsertCexRow0] upsertCexEntry = .ok [upsertCexRow1] ∧
    countRows [upsertCexRow1] = countRows [upsertCexRow0] ∧
    getCaptureById [upsertCexRow1] "2025-06-01_080000" ≠
      getCaptureById [upsertCexRow0] "2025-06-01_080000" := by
  refine ⟨rfl, rfl, rfl, by decide⟩

/-- C3 amended: calling `Indexer.add_capture` twice with the identical
entry leaves `count()` unchanged relative to one call, and leaves the
row returned by `get_by_id(entry['id'])` unchanged in every column
except `created_at`, which is overwritten with the second call's
wall-clock reading (so both calls store the same logical capture). -/
theorem addCapture_twice_amended (idx : List Row) (e : Entry) (t1 t2 : Int)
    (idx1 idx2 : List Row)
    (h1 : addCapture t1 idx e = .ok idx1) (h2 : addCapture t2 idx1 e = .ok idx2) :
    countRows idx2 = countRows idx1 ∧
    ∀ eid, entryOkId e = some eid →
      getCaptureById idx2 eid =
        (getCaptureById idx1 eid).map (fun r => { r with created_at := t2 }) := by
  rcases addCapture_ok_inv h1 with ⟨row1, hr1, hup1⟩
  rcases addCapture_ok_inv h2 with ⟨row2, hr2, hup2⟩
  have ht1 := entryRow?_time t1 e
  have ht2 := entryRow?_time t2 e
  rw [hr1] at ht1
  rw [hr2] at ht2
  cases h0 : entryRow? 0 e with
  | none =>
    rw [h0] at ht1
    exact absurd ht1 (by simp)
  | some row0 =>
    rw [h0] at ht1 ht2
    simp only [Option.map_some'] at ht1 ht2
    have hrow1 : row1 = { row0 with created_at := t1 } := by injection ht1
    have hrow2 : row2 = { row0 with created_at := t2 } := by injection ht2
    have hid12 : row2.id = row1.id := by rw [hrow1, hrow2]
    constructor
    · rw [hup2]
      unfold countRows
      apply length_upsert_of_hasId
      rw [hid12, hup1]
      exact hasId_upsert_self idx row1
    · intro eid heid
      have hide : row1.id = eid := by
        have := entryRow?_id hr1
        rw [heid] at this
        injection this with hh
        exact hh.symm
      have hg2 : getCaptureById idx2 eid = some row2 := by
        rw [hup2, ← hide, ← hid12]
        exact getById_upsert idx1 row2
      have hg1 : getCaptureById idx1 eid = some row1 := by
        rw [hup1, ← hide]
        exact getById_upsert idx row1
      rw [hg1, hg2]
      simp only [Option.map_some']
      rw [hrow2, hrow1]

/-- Witness for C3's amended theorem at the concrete replayed entry. -/
theorem addCapture_twice_amended_witness :
    countRows [upsertCexRow1] = countRows [upsertCexRow0] ∧
    ∀ eid, entryOkId upsertCexEntry = some eid →
      getCaptureById [upsertCexRow1] eid =
        (getCaptureById [upsertCexRow0] eid).map (fun r => { r with created_at := 1 }) :=
  addCapture_twice_amended [] upsertCexEntry 0 1 [upsertCexRow0] [upsertCexRow1] rfl rfl

/-! ### Helper lemma: the merge never touches the Index-origin fields -/

theorem merge_keeps_index_fields (r : Row) (m : MetaDict) :
    (mergeDbAndMeta (some r) m).id = some r.id ∧
    (mergeDbAndMeta (some r) m).ts = some r.ts ∧
    (mergeDbAndMeta (some r) m).path = some r.path ∧
    (mergeDbAndMeta (some r) m).width = r.width ∧
    (mergeDbAndMeta (some r) m).height = r.height ∧
    (mergeDbAndMeta (some r) m).resolution = r.resolution ∧
    (mergeDbAndMeta (some r) m).action = some r.action ∧
    (mergeDbAndMeta (some r) m).created_at = some r.created_at := by
  unfold mergeDbAndMeta
  exact ⟨rfl, rfl, rfl, rfl, rfl, rfl, rfl, rfl⟩

/-- Normal form of a successful `record_capture`: the audit line is
appended, the row is upserted, and both the returned value and a
subsequent `get_item` are the upserted row merged with whatever sidecar
the final state holds for its id. -/
theorem recordCapture_ok_shape (clk : Clock) (st : AppState) (entry : Entry) (row : Row)
    (hid : entry.id = some (some row.id))
    (hrow : entryRow? clk.real entry = some row) :
    (recordCapture true clk st entry).2 =
      .ok (mergeDbAndMeta (some row)
        (readMeta (recordCapture true clk st entry).1.sidecars row.id)) ∧
    getItem (recordCapture true clk st entry).1 row.id =
      some (.merged (mergeDbAndMeta (some row)
        (readMeta (recordCapture true clk st entry).1.sidecars row.id))) ∧
    (recordCapture true clk st entry).1.index = upsertRow st.index row := by
  have hadd : ∀ idxx : List Row, addCapture clk.real idxx entry = .ok (upsertRow idxx row) :=
    fun idxx => addCapture_ok_of_row idxx hrow
  have hgot := getById_upsert st.index row
  simp only [recordCapture, hid, Bool.not_true, Bool.false_eq_true, if_false, hadd,
    Option.getD]
  by_cases hm : (readMeta st.sidecars row.id).truthy
  · simp only [hm, Bool.not_true, Bool.false_eq_true, if_false]
    refine ⟨by rw [hgot], ?_, trivial⟩
    simp only [getItem, hgot]
  · have hmf : (readMeta st.sidecars row.id).truthy = false := by
      exact Bool.not_eq_true _ |>.mp hm
    simp only [hmf, Bool.not_false, if_true]
    refine ⟨by rw [hgot], ?_, trivial⟩
    simp only [getItem, hgot]

/-! ### Claim C1 -/

/-- C1: for every entry with valid `id`, `ts` and `path`,
`IndexAPI.record_capture(entry)` succeeds, and `get_item(entry['id'])`
on the resulting state returns the merged record the call returned,
whose Index-origin fields — `id`, `ts`, `path`, `width`, `height`,
`resolution` and `action` — exactly equal the corresponding fields of
the input entry (`action` as `entry.get("action", "capture")`). -/
theorem recordCapture_getItem_roundtrip (clk : Clock) (st : AppState) (entry : Entry)
    (i t p a : String)
    (hid : entry.id = some (some i)) (hi : i ≠ "")
    (hts : entry.ts = some (some t)) (hp : entry.path = some (some p))
    (ha : entryAction entry = some a) :
    ∃ g : Merged,
      (recordCapture true clk st entry).2 = .ok g ∧
      getItem (recordCapture true clk st entry).1 i = some (.merged g) ∧
      g.id = some i ∧ g.ts = some t ∧ g.path = some p ∧
      g.width = dget entry.width ∧ g.height = dget entry.height ∧
      g.resolution = dget entry.resolution ∧ g.action = some a := by
  have hok : entryOkId entry = some i := by
    unfold entryOkId pyStr? dget
    rw [hid]
    simp [hi]
  have h2 : dget entry.ts = some t := by unfold dget; rw [hts]; rfl
  have h3 : dget entry.path = some p := by unfold dget; rw [hp]; rfl
  have hrow : entryRow? clk.real entry =
      some { id := i, ts := t, path := p, width := dget entry.width,
             height := dget entry.height, resolution := dget entry.resolution,
             mood := dget entry.mood, notes := dget entry.notes, action := a,
             created_at := clk.real } := by
    unfold entryRow?
    rw [hok, h2, h3, ha]
  obtain ⟨hres, hget, _⟩ := recordCapture_ok_shape clk st entry _ hid hrow
  exact ⟨_, hres, hget, (merge_keeps_index_fields _ _).1,
    (merge_keeps_index_fields _ _).2.1, (merge_keeps_index_fields _ _).2.2.1,
    (merge_keeps_index_fields _ _).2.2.2.1, (merge_keeps_index_fields _ _).2.2.2.2.1,
    (merge_keeps_index_fields _ _).2.2.2.2.2.1, (merge_keeps_index_fields _ _).2.2.2.2.2.2.1⟩

/-- Witness for C1 at a concrete entry, clock and empty data directory. -/
theorem recordCapture_getItem_roundtrip_witness :
    ∃ g : Merged,
      (recordCapture true { real := 100, iso := "2025-06-01T08:00:01+00:00" }
          { audit := [], index := [], sidecars := [] } upsertCexEntry).2 = .ok g ∧
      getItem (recordCapture true { real := 100, iso := "2025-06-01T08:00:01+00:00" }
          { audit := [], index := [], sidecars := [] } upsertCexEntry).1
          "2025-06-01_080000" = some (.merged g) ∧
      g.id = some "2025-06-01_080000" ∧ g.ts = some "2025-06-01T08:00:00+00:00" ∧
      g.path = some "/photos/2025/06/2025-06-01_080000.jpg" ∧
      g.width = dget upsertCexEntry.width ∧ g.height = dget upsertCexEntry.height ∧
      g.resolution = dget upsertCexEntry.resolution ∧ g.action = some "capture" :=
  recordCapture_getItem_roundtrip { real := 100, iso := "2025-06-01T08:00:01+00:00" }
    { audit := [], index := [], sidecars := [] } upsertCexEntry
    "2025-06-01_080000" "2025-06-01T08:00:00+00:00"
    "/photos/2025/06/2025-06-01_080000.jpg" "capture" rfl (by decide) rfl rfl rfl

/-! ### Helper lemmas about sidecar reads and the targeted column update -/

theorem readMeta_writeMeta (sc : Sidecars) (eid : String) (m : MetaDict) (iso : String) :
    readMeta (writeMeta sc eid m iso) eid = fillEditedAt m iso := by
  unfold writeMeta
  by_cases h : sc.any (fun kv => kv.1 == eid) = true
  · rw [if_pos h]
    induction sc with
    | nil => simp [List.any_nil] at h
    | cons kv rest ih =>
      rw [List.map_cons]
      by_cases hk : (kv.1 == eid) = true
      · have hrepl : (if kv.1 == eid then (eid, fillEditedAt m iso) else kv) =
            (eid, fillEditedAt m iso) := by rw [if_pos hk]
        rw [hrepl]
        unfold readMeta
        simp [List.find?_cons]
      · have hkf : (kv.1 == eid) = false := Bool.not_eq_true _ |>.mp hk
        have hrepl : (if kv.1 == eid then (eid, fillEditedAt m iso) else kv) = kv := by
          rw [if_neg hk]
        rw [hrepl]
        have hrest : rest.any (fun kv => kv.1 == eid) = true := by
          simp only [List.any_cons, hkf, Bool.false_or] at h
          exact h
        have := ih hrest
        unfold readMeta at this ⊢
        simp only [List.find?_cons, hkf, cond_false]
        exact this
  · rw [if_neg h]
    have hnone : sc.find? (fun kv => kv.1 == eid) = none := by
      rw [List.find?_eq_none]
      intro kv hm
      intro hc
      exact h (List.any_eq_true.mpr ⟨kv, hm, hc⟩)
    unfold readMeta
    rw [List.find?_append, hnone]
    simp [List.find?]

theorem fillEditedAt_truthy (m : MetaDict) (iso : String) :
    (fillEditedAt m iso).truthy = true := by
  unfold fillEditedAt MetaDict.truthy
  by_cases h : m.edited_at.isSome = true
  · rw [if_pos h]
    simp [h]
  · rw [if_neg h]
    simp

theorem indexerUpdateMeta_of_absent {idx : List Row} {eid : String} (m : MetaDict)
    (h : getCaptureById idx eid = none) : indexerUpdateMeta idx eid m = idx := by
  unfold indexerUpdateMeta
  by_cases hm : (!m.truthy) = true
  · rw [if_pos hm]
  · rw [if_neg hm]
    have habs := getById_eq_none_iff.mp h
    have : ∀ r ∈ idx, (fun r : Row =>
        if r.id == eid then
          { r with
            mood := if m.mood.isSome then dget m.mood else r.mood,
            notes := if m.notes.isSome then dget m.notes else r.notes }
        else r) r = r := by
      intro r hr
      simp only [habs r hr, Bool.false_eq_true, if_false]
    calc idx.map _ = idx.map id := List.map_congr_left this
    _ = idx := List.map_id idx

/-! ### Claim C9 -/

/-- C9: after `IndexAPI.record_deletion(id, reason)` for an id whose
capture row exists, `get_by_id(id)` returns a row with
`action = 'delete'`, empty `path`, and `width`, `height`, `resolution`,
`mood`, `notes` all `None`: the deletion upsert replaces the capture row
wholesale under the same primary key (so `count()` is unchanged and the
original path and dimensions are gone from the Index). -/
theorem recordDeletion_replaces_row (clk : Clock) (st : AppState) (eid reason : String)
    (r : Row) (hr : getCaptureById st.index eid = some r) (hact : r.action = "capture")
    (hne : eid ≠ "") :
    (recordDeletion true clk st eid reason).2 =
      .ok { id := eid, ts := clk.iso, action := "delete", reason := reason } ∧
    getCaptureById (recordDeletion true clk st eid reason).1.index eid =
      some { id := eid, ts := clk.iso, path := "", width := none, height := none,
             resolution := none, mood := none, notes := none, action := "delete",
             created_at := clk.real } ∧
    countRows (recordDeletion true clk st eid reason).1.index = countRows st.index := by
  have hrow : entryRow? clk.real (deletionEntry clk eid reason) =
      some { id := eid, ts := clk.iso, path := "", width := none, height := none,
             resolution := none, mood := none, notes := none, action := "delete",
             created_at := clk.real } := by
    unfold entryRow? entryOkId pyStr? dget deletionEntry entryAction
    simp [hne]
  have hadd : ∀ idxx : List Row,
      addCapture clk.real idxx (deletionEntry clk eid reason) =
        .ok (upsertRow idxx { id := eid, ts := clk.iso, path := "", width := none,
                              height := none, resolution := none, mood := none,
                              notes := none, action := "delete",
                              created_at := clk.real }) :=
    fun idxx => addCapture_ok_of_row idxx hrow
  unfold recordDeletion
  rw [if_neg hne]
  simp only [Bool.not_true, Bool.false_eq_true, if_false, hadd]
  refine ⟨trivial, ?_, ?_⟩
  · exact getById_upsert st.index _
  · unfold countRows
    exact length_upsert_of_hasId (hasId_of_getById hr)

/-- Witness for C9: delete the concrete capture recorded by the C3 rows. -/
theorem recordDeletion_replaces_row_witness :
    (recordDeletion true { real := 5, iso := "T5" }
        { audit := [], index := [upsertCexRow0], sidecars := [] }
        "2025-06-01_080000" "manual").2 =
      .ok { id := "2025-06-01_080000", ts := "T5", action := "delete",
            reason := "manual" } ∧
    getCaptureById (recordDeletion true { real := 5, iso := "T5" }
        { audit := [], index := [upsertCexRow0], sidecars := [] }
        "2025-06-01_080000" "manual").1.index "2025-06-01_080000" =
      some { id := "2025-06-01_080000", ts := "T5", path := "", width := none,
             height := none, resolution := none, mood := none, notes := none,
             action := "delete", created_at := 5 } ∧
    countRows (recordDeletion true { real := 5, iso := "T5" }
        { audit := [], index := [upsertCexRow0], sidecars := [] }
        "2025-06-01_080000" "manual").1.index = countRows [upsertCexRow0] :=
  recordDeletion_replaces_row { real := 5, iso := "T5" }
    { audit := [], index := [upsertCexRow0], sidecars := [] }
    "2025-06-01_080000" "manual" upsertCexRow0 rfl rfl (by decide)

/-! ### Claim C10 -/

/-- C10: `IndexAPI.update_meta(id, fields)` with non-empty fields
succeeds even when no Index row exists for the id: the sidecar file is
written (with `edited_at` auto-filled), the targeted column `UPDATE`
matches no row and leaves the Index unchanged without raising, and a
subsequent `get_item(id)` returns the sidecar-only record rather than
`None` or an error. -/
theorem updateMeta_without_row (clk : Clock) (st : AppState) (eid : String) (meta : MetaDict)
    (hnorow : getCaptureById st.index eid = none) (htr : meta.truthy = true)
    (hne : eid ≠ "") :
    (updateMeta clk st eid meta).1.index = st.index ∧
    readMeta (updateMeta clk st eid meta).1.sidecars eid = fillEditedAt meta clk.iso ∧
    (updateMeta clk st eid meta).2 = .ok (some (.metaOnly (fillEditedAt meta clk.iso))) := by
  have hbeq : (eid == "") = false := by
    simpa using hne
  have hupd : indexerUpdateMeta st.index eid
      { idK := none,
        mood := if meta.mood.isSome then some (dget meta.mood) else none,
        notes := if meta.notes.isSome then some (dget meta.notes) else none,
        edited_at := none } = st.index :=
    indexerUpdateMeta_of_absent _ hnorow
  have hread : readMeta (writeMeta st.sidecars eid meta clk.iso) eid =
      fillEditedAt meta clk.iso := readMeta_writeMeta st.sidecars eid meta clk.iso
  unfold updateMeta
  simp only [hbeq, htr, Bool.not_true, Bool.or_false, Bool.false_or,
    Bool.false_eq_true, if_false, hupd, ite_self]
  refine ⟨trivial, hread, ?_⟩
  unfold getItem
  simp only [hnorow, hread, fillEditedAt_truthy, if_true]

/-- Witness for C10: update metadata for an id with no Index row. -/
theorem updateMeta_without_row_witness :
    (updateMeta { real := 3, iso := "T3" }
        { audit := [], index := [], sidecars := [] } "2025-07-07_120000"
        { mood := some (some "Good") }).1.index = [] ∧
    readMeta (updateMeta { real := 3, iso := "T3" }
        { audit := [], index := [], sidecars := [] } "2025-07-07_120000"
        { mood := some (some "Good") }).1.sidecars "2025-07-07_120000" =
      fillEditedAt { mood := some (some "Good") } "T3" ∧
    (updateMeta { real := 3, iso := "T3" }
        { audit := [], index := [], sidecars := [] } "2025-07-07_120000"
        { mood := some (some "Good") }).2 =
      .ok (some (.metaOnly (fillEditedAt { mood := some (some "Good") } "T3"))) :=
  updateMeta_without_row { real := 3, iso := "T3" }
    { audit := [], index := [], sidecars := [] } "2025-07-07_120000"
    { mood := some (some "Good") } rfl rfl (by decide)

/-! ### Claim C6 -/

/-- C6: for every Index row and sidecar mapping, `merge_db_and_meta`
returns the Index row with each of `mood`, `notes`, `edited_at` replaced
by the sidecar's value exactly when that sidecar field is present and
non-null, otherwise keeping the Index value, and defaulting the field to
`None` when absent from both (the row has no `edited_at` column, so the
sidecar alone decides it); all other Index fields pass through
unchanged.  The embedding is a pure function returning a fresh record,
so neither input is mutated. -/
theorem mergeDbAndMeta_matches_spec (r : Row) (m : MetaDict) :
    mergeDbAndMeta (some r) m =
      { id := some r.id, ts := some r.ts, path := some r.path,
        width := r.width, height := r.height, resolution := r.resolution,
        action := some r.action, created_at := some r.created_at,
        mood := specSidecarWins m.mood r.mood,
        notes := specSidecarWins m.notes r.notes,
        edited_at := specSidecarWins m.edited_at none } := by
  rcases m with ⟨mi, mm, mn, me⟩
  unfold mergeDbAndMeta specSidecarWins dget
  rcases mm with _ | ⟨_ | mv⟩ <;> rcases mn with _ | ⟨_ | nv⟩ <;>
    rcases me with _ | ⟨_ | ev⟩ <;> rfl

/-! ### Claim C5 -/

/-- C5: `Indexer.get_captures_by_month` returns exactly the rows with
`action = 'capture'` whose stored timestamp lies in
`[start_of_month, start_of_next_month)` under the stored string
ordering, sorted ascending by timestamp; `delete` rows and rows outside
the window are excluded, and the December upper boundary is January 1 of
the next year. -/
theorem getCapturesByMonth_spec (idx : List Row) (year month : Nat) :
    (∀ r, r ∈ getCapturesByMonth idx year month ↔
      (r ∈ idx ∧ r.action = "capture" ∧
        strLe (monthStartStr year month) r.ts = true ∧
        strLt r.ts (monthEndStr year month) = true)) ∧
    List.Sorted tsLeP (getCapturesByMonth idx year month) ∧
    (month = 12 → monthEndStr year month = monthStartStr (year + 1) 1) ∧
    (month ≠ 12 → monthEndStr year month = monthStartStr year (month + 1)) := by
  refine ⟨?_, ?_, ?_, ?_⟩
  · intro r
    unfold getCapturesByMonth
    rw [(List.perm_insertionSort tsLeP _).mem_iff, List.mem_filter]
    constructor
    · rintro ⟨hmem, hcond⟩
      simp only [Bool.and_eq_true, beq_iff_eq] at hcond
      exact ⟨hmem, hcond.2, hcond.1.1, hcond.1.2⟩
    · rintro ⟨hmem, hact, hA, hB⟩
      refine ⟨hmem, ?_⟩
      simp only [Bool.and_eq_true, beq_iff_eq]
      exact ⟨⟨hA, hB⟩, hact⟩
  · unfold getCapturesByMonth
    exact List.sorted_insertionSort tsLeP _
  · intro h
    subst h
    unfold monthEndStr monthStartStr
    simp only [beq_self_eq_true, if_true]
    rw [String.append_assoc, String.append_assoc]
    congr 1
  · intro h
    have hb : (month == 12) = false := by simpa using h
    unfold monthEndStr monthStartStr
    simp only [hb, Bool.false_eq_true, if_false]

/-- Witness for C5 at a concrete table, month and the December rollover. -/
theorem getCapturesByMonth_spec_witness :
    (upsertCexRow0 ∈ getCapturesByMonth [upsertCexRow0] 2025 6 ↔
      (upsertCexRow0 ∈ [upsertCexRow0] ∧ upsertCexRow0.action = "capture" ∧
        strLe (monthStartStr 2025 6) upsertCexRow0.ts = true ∧
        strLt upsertCexRow0.ts (monthEndStr 2025 6) = true)) ∧
    monthEndStr 2025 12 = monthStartStr 2026 1 :=
  ⟨(getCapturesByMonth_spec [upsertCexRow0] 2025 6).1 upsertCexRow0,
   (getCapturesByMonth_spec [upsertCexRow0] 2025 12).2.2.1 rfl⟩

/-! ### Helper lemmas about migration replay -/

theorem migrateStep_idx_of_none (clk : Nat → Int) (st : MigSt) (line : Option JsonRec)
    (h : lineRowId line = none) : (migrateStep clk st line).idx = st.idx := by
  cases line with
  | none => rfl
  | some obj =>
    cases hme : migLineEntry obj with
    | none => simp [migrateStep, hme]
    | some e =>
      have hmap : Option.map (fun r : Row => r.id) (entryRow? 0 e) = none := by
        unfold lineRowId at h
        simpa [hme] using h
      have h0 : entryRow? 0 e = none := by
        cases h0 : entryRow? 0 e
        · rfl
        · rw [h0] at hmap
          simp at hmap
      have ht : entryRow? (clk st.calls) e = none := by
        rw [entryRow?_time, h0]
        rfl
      cases ha : addCapture (clk st.calls) st.idx e with
      | ok idx2 =>
        rcases addCapture_ok_inv ha with ⟨row, hrow, _⟩
        rw [ht] at hrow
        exact absurd hrow (by simp)
      | error msg => simp [migrateStep, hme, ha]

theorem migrateStep_idx_of_some (clk : Nat → Int) (st : MigSt) (line : Option JsonRec)
    (i : String) (h : lineRowId line = some i) :
    ∃ r : Row, r.id = i ∧ (migrateStep clk st line).idx = upsertRow st.idx r := by
  cases line with
  | none => simp [lineRowId] at h
  | some obj =>
    cases hme : migLineEntry obj with
    | none =>
      unfold lineRowId at h
      simp [hme] at h
    | some e =>
      have hmap : Option.map (fun r : Row => r.id) (entryRow? 0 e) = some i := by
        unfold lineRowId at h
        simpa [hme] using h
      cases h0 : entryRow? 0 e with
      | none =>
        rw [h0] at hmap
        simp at hmap
      | some r0 =>
        rw [h0] at hmap
        simp only [Option.map_some'] at hmap
        injection hmap with hi
        have ht : entryRow? (clk st.calls) e =
            some { r0 with created_at := clk st.calls } := by
          rw [entryRow?_time, h0]
          rfl
        refine ⟨{ r0 with created_at := clk st.calls }, hi, ?_⟩
        simp [migrateStep, hme, addCapture_ok_of_row st.idx ht]

theorem migrateStep_hasId_mono (clk : Nat → Int) (st : MigSt) (line : Option JsonRec)
    (i : String) (h : hasId st.idx i = true) :
    hasId (migrateStep clk st line).idx i = true := by
  cases hl : lineRowId line with
  | none =>
    rw [migrateStep_idx_of_none clk st line hl]
    exact h
  | some j =>
    rcases migrateStep_idx_of_some clk st line j hl with ⟨r, _, heq⟩
    rw [heq]
    exact hasId_upsert_mono r h

theorem migrateFold_hasId_mono (clk : Nat → Int) (lines : List (Option JsonRec)) :
    ∀ (st : MigSt) (i : String), hasId st.idx i = true →
      hasId ((lines.foldl (migrateStep clk) st).idx) i = true := by
  induction lines with
  | nil => intro st i h; exact h
  | cons line rest ih =>
    intro st i h
    rw [List.foldl_cons]
    exact ih _ i (migrateStep_hasId_mono clk st line i h)

theorem migrateFold_covers (clk : Nat → Int) (lines : List (Option JsonRec)) :
    ∀ (st : MigSt) (line : Option JsonRec), line ∈ lines → ∀ i : String,
      lineRowId line = some i →
      hasId ((lines.foldl (migrateStep clk) st).idx) i = true := by
  induction lines with
  | nil =>
    intro st line hm
    cases hm
  | cons l0 rest ih =>
    intro st line hm i hl
    rw [List.foldl_cons]
    rcases List.mem_cons.mp hm with h | h
    · subst h
      apply migrateFold_hasId_mono
      rcases migrateStep_idx_of_some clk st line i hl with ⟨r, hid, heq⟩
      rw [heq, ← hid]
      exact hasId_upsert_self st.idx r
    · exact ih _ line h i hl

theorem migrateFold_len_stable (clk : Nat → Int) (lines : List (Option JsonRec)) :
    ∀ st : MigSt,
      (∀ line ∈ lines, ∀ i : String, lineRowId line = some i → hasId st.idx i = true) →
      ((lines.foldl (migrateStep clk) st).idx).length = st.idx.length := by
  induction lines with
  | nil => intro st _; rfl
  | cons l0 rest ih =>
    intro st h
    rw [List.foldl_cons]
    cases hl : lineRowId l0 with
    | none =>
      have hidx := migrateStep_idx_of_none clk st l0 hl
      have hcond : ∀ line ∈ rest, ∀ i : String, lineRowId line = some i →
          hasId (migrateStep clk st l0).idx i = true := by
        intro line hm i hli
        rw [hidx]
        exact h line (List.mem_cons_of_mem _ hm) i hli
      rw [ih (migrateStep clk st l0) hcond, hidx]
    | some i =>
      rcases migrateStep_idx_of_some clk st l0 i hl with ⟨r, hid, heq⟩
      have hh : hasId st.idx r.id = true := by
        rw [hid]
        exact h l0 (List.mem_cons_self _ _) i hl
      have hlen : ((migrateStep clk st l0).idx).length = st.idx.length := by
        rw [heq]
        exact length_upsert_of_hasId hh
      have hcond : ∀ line ∈ rest, ∀ j : String, lineRowId line = some j →
          hasId (migrateStep clk st l0).idx j = true := by
        intro line hm j hlj
        exact migrateStep_hasId_mono clk st l0 j (h line (List.mem_cons_of_mem _ hm) j hlj)
      rw [ih (migrateStep clk st l0) hcond, hlen]

/-! ### Claim C4 -/

/-- C4: replaying the same unchanged audit file through
`Indexer.migrate_from_jsonl` twice leaves the Index with the same
`count()` as one replay (every id the file can derive is already present
after the first run, so the second run only replaces); a malformed or
blank line is skipped, and a record with no derivable id is skipped,
rather than aborting the replay. -/
theorem migrate_idempotent_and_skipping (clk1 clk2 : Nat → Int)
    (lines : List (Option JsonRec)) (idx : List Row) (obj : JsonRec)
    (rest : List (Option JsonRec)) :
    countRows (migrateFromJsonl clk2 lines (migrateFromJsonl clk1 lines idx).2).2 =
      countRows (migrateFromJsonl clk1 lines idx).2 ∧
    migrateFromJsonl clk2 (none :: rest) idx = migrateFromJsonl clk2 rest idx ∧
    (migLineEntry obj = none →
      migrateFromJsonl clk2 (some obj :: rest) idx = migrateFromJsonl clk2 rest idx) := by
  refine ⟨?_, ?_, ?_⟩
  · unfold migrateFromJsonl countRows
    apply migrateFold_len_stable
    intro line hm i hl
    exact migrateFold_covers clk1 lines _ line hm i hl
  · rfl
  · intro h
    unfold migrateFromJsonl
    rw [List.foldl_cons]
    have hstep : migrateStep clk2 { count := 0, calls := 0, idx := idx } (some obj) =
        { count := 0, calls := 0, idx := idx } := by
      simp [migrateStep, h]
    rw [hstep]

/-- Witness for C4 at a one-line audit file and a record with no
derivable id. -/
theorem migrate_idempotent_and_skipping_witness :
    countRows (migrateFromJsonl (fun _ => 1)
        [some { id := some (some "a"), ts := some (some "T"), path := some (some "p") }]
        (migrateFromJsonl (fun _ => 0)
          [some { id := some (some "a"), ts := some (some "T"), path := some (some "p") }]
          []).2).2 =
      countRows (migrateFromJsonl (fun _ => 0)
        [some { id := some (some "a"), ts := some (some "T"), path := some (some "p") }]
        []).2 ∧
    migrateFromJsonl (fun _ => 1) (none :: []) [] = migrateFromJsonl (fun _ => 1) [] [] ∧
    (migLineEntry {} = none →
      migrateFromJsonl (fun _ => 1) (some {} :: []) [] =
        migrateFromJsonl (fun _ => 1) [] []) :=
  migrate_idempotent_and_skipping (fun _ => 0) (fun _ => 1)
    [some { id := some (some "a"), ts := some (some "T"), path := some (some "p") }]
    [] {} []

/-! ### Helper lemmas about the photos tree scan -/

theorem mem_of_getLast?_eq_some {α : Type} {l : List α} {a : α}
    (h : l.getLast? = some a) : a ∈ l := by
  cases l with
  | nil => simp at h
  | cons x xs =>
    have hne : x :: xs ≠ [] := by simp
    rw [List.getLast?_eq_getLast_of_ne_nil hne] at h
    injection h with h2
    rw [← h2]
    exact List.getLast_mem hne

theorem strStartsWith_of_append {p q s : String}
    (h : strStartsWith (p ++ q) s = true) : strStartsWith p s = true := by
  unfold strStartsWith at *
  rw [List.isPrefixOf_iff_prefix] at *
  have hpq : p.data <+: (p ++ q).data := by
    rw [String.data_append]
    exact List.prefix_append _ _
  exact hpq.trans h

theorem mem_listImagesForDate {fs : List PFile} {dt : PyDate} {p : PFile}
    (h : p ∈ listImagesForDate fs dt) : p ∈ fs := by
  unfold listImagesForDate at h
  simp only [] at h
  cases hany : fs.any (fun f => f.year == dateYearStr dt) with
  | false =>
    rw [hany] at h
    simp only [Bool.not_false, if_true] at h
    exact absurd h (List.not_mem_nil p)
  | true =>
    rw [hany] at h
    simp only [Bool.not_true, Bool.false_eq_true, if_false] at h
    rcases List.mem_flatMap.mp h with ⟨mo, _, hp⟩
    have hmem := (List.perm_insertionSort nameLeP _).mem_iff.mp hp
    exact (List.mem_filter.mp hmem).1

theorem listImagesForDate_eq_nil_of_no_match {fs : List PFile} {dt : PyDate}
    (h : ∀ f ∈ fs, strStartsWith (datePrefixStr dt) f.name = false) :
    listImagesForDate fs dt = [] := by
  unfold listImagesForDate
  cases hany : fs.any (fun f => f.year == dateYearStr dt) with
  | false => simp [hany]
  | true =>
    simp only [hany, Bool.not_true, Bool.false_eq_true, if_false]
    apply List.eq_nil_iff_forall_not_mem.mpr
    intro x hx
    rcases List.mem_flatMap.mp hx with ⟨mo, _, hxin⟩
    have hmem := (List.perm_insertionSort nameLeP _).mem_iff.mp hxin
    rcases List.mem_filter.mp hmem with ⟨hxfs, hcond⟩
    simp only [Bool.and_eq_true] at hcond
    have hglob := hcond.2
    unfold globMatchesDate at hglob
    simp only [Bool.and_eq_true] at hglob
    have hsw := strStartsWith_of_append hglob.1.1
    rw [h x hxfs] at hsw
    exact Bool.false_ne_true hsw

/-! ### Claim C8 -/

/-- C8: `delete_last_image_for_date` returns the `no_image` condition —
deleting nothing — when no entry's filename starts with the date's
prefix; returns success together with the deleted path (removed from the
tree) when the located entry is a deletable file; and surfaces the
underlying `delete_path` error (here: the path is a directory, which
`unlink` refuses) together with an unchanged tree when the deletion
itself fails. -/
theorem deleteLastImageForDate_cases (fs : List PFile) (dt : PyDate) :
    ((∀ f ∈ fs, strStartsWith (datePrefixStr dt) f.name = false) →
      deleteLastImageForDate fs dt = ((false, some "no_image", none), fs)) ∧
    (∀ p, lastImageForDate fs dt = some p → p.isDir = false →
      deleteLastImageForDate fs dt = ((true, none, some p), fs.erase p)) ∧
    (∀ p, lastImageForDate fs dt = some p → p.isDir = true →
      deleteLastImageForDate fs dt = ((false, some "path_is_directory", some p), fs)) := by
  refine ⟨?_, ?_, ?_⟩
  · intro h
    have hnil := listImagesForDate_eq_nil_of_no_match h
    unfold deleteLastImageForDate lastImageForDate
    rw [hnil]
    rfl
  · intro p hl hd
    have hlast : (listImagesForDate fs dt).getLast? = some p := hl
    have hmem : p ∈ fs := mem_listImagesForDate (mem_of_getLast?_eq_some hlast)
    have hc : fs.contains p = true := List.elem_eq_true_of_mem hmem
    unfold deleteLastImageForDate
    rw [hl]
    unfold deletePath
    simp only [hc, Bool.not_true, Bool.false_eq_true, if_false, hd]
  · intro p hl hd
    have hlast : (listImagesForDate fs dt).getLast? = some p := hl
    have hmem : p ∈ fs := mem_listImagesForDate (mem_of_getLast?_eq_some hlast)
    have hc : fs.contains p = true := List.elem_eq_true_of_mem hmem
    unfold deleteLastImageForDate
    rw [hl]
    unfold deletePath
    simp only [hc, Bool.not_true, Bool.false_eq_true, if_false, hd, if_true]

/-- Witness for C8: delete the single photo of a concrete tree. -/
theorem deleteLastImageForDate_cases_witness :
    deleteLastImageForDate
        [{ year := "2025", month := "06", name := "2025-06-01_080000.jpg",
           isDir := false }] { y := 2025, m := 6, d := 1 } =
      ((true, none,
        some { year := "2025", month := "06", name := "2025-06-01_080000.jpg",
               isDir := false }),
       ([{ year := "2025", month := "06", name := "2025-06-01_080000.jpg",
           isDir := false }].erase
         { year := "2025", month := "06", name := "2025-06-01_080000.jpg",
           isDir := false })) :=
  (deleteLastImageForDate_cases
      [{ year := "2025", month := "06", name := "2025-06-01_080000.jpg",
         isDir := false }] { y := 2025, m := 6, d := 1 }).2.1
    { year := "2025", month := "06", name := "2025-06-01_080000.jpg", isDir := false }
    rfl rfl

/-! ### Claim C7 -/

/-- C7: when a capture attempt finds an existing image for the same
calendar date and `allow_retake` is false, `capture_once` returns a
structured result dict — not a raised exception — with `success = False`
and the "photo already exists" error message, and performs no file
write, no audit append and no Index mutation (the function never touches
the Index on any path, and here the whole state is returned unchanged),
so the existing photo remains the date's only live file. -/
theorem captureOnce_blocked_one_per_day (env : CapEnv) (root : String) (ts : PyDateTime)
    (st : CapState) (p : PFile) (h : lastImageForDate st.photos ts.date = some p) :
    (captureOnce env root ts false st).1 = st ∧
    (captureOnce env root ts false st).2.success = false ∧
    (captureOnce env root ts false st).2.error =
      some ("photo already exists for " ++ datePrefixStr ts.date ++ ": "
            ++ pfilePathStr root p) ∧
    (captureOnce env root ts false st).2.id = none ∧
    listImagesForDate (captureOnce env root ts false st).1.photos ts.date =
      listImagesForDate st.photos ts.date := by
  unfold captureOnce
  rw [h]
  simp only [Bool.not_false, if_true]
  exact ⟨trivial, trivial, trivial, trivial, trivial⟩

/-- Witness for C7: a second same-day capture attempt against a tree
already holding that date's photo. -/
theorem captureOnce_blocked_one_per_day_witness :
    (captureOnce
        { cam := some (720, 1280), saveErr := none, captureAppendOk := true,
          deletionAppendOk := true, delIso := "D" } "/root"
        { date := { y := 2025, m := 6, d := 1 }, h := 9, mi := 0, s := 0, iso := "I" }
        false
        { photos := [{ year := "2025", month := "06",
                       name := "2025-06-01_080000.jpg", isDir := false }],
          audit := [] }).1 =
      { photos := [{ year := "2025", month := "06",
                     name := "2025-06-01_080000.jpg", isDir := false }],
        audit := [] } ∧
    (captureOnce
        { cam := some (720, 1280), saveErr := none, captureAppendOk := true,
          deletionAppendOk := true, delIso := "D" } "/root"
        { date := { y := 2025, m := 6, d := 1 }, h := 9, mi := 0, s := 0, iso := "I" }
        false
        { photos := [{ year := "2025", month := "06",
                       name := "2025-06-01_080000.jpg", isDir := false }],
          audit := [] }).2.success = false ∧
    (captureOnce
        { cam := some (720, 1280), saveErr := none, captureAppendOk := true,
          deletionAppendOk := true, delIso := "D" } "/root"
        { date := { y := 2025, m := 6, d := 1 }, h := 9, mi := 0, s := 0, iso := "I" }
        false
        { photos := [{ year := "2025", month := "06",
                       name := "2025-06-01_080000.jpg", isDir := false }],
          audit := [] }).2.error =
      some ("photo already exists for "
            ++ datePrefixStr { y := 2025, m := 6, d := 1 } ++ ": "
            ++ pfilePathStr "/root"
              { year := "2025", month := "06", name := "2025-06-01_080000.jpg",
                isDir := false }) ∧
    (captureOnce
        { cam := some (720, 1280), saveErr := none, captureAppendOk := true,
          deletionAppendOk := true, delIso := "D" } "/root"
        { date := { y := 2025, m := 6, d := 1 }, h := 9, mi := 0, s := 0, iso := "I" }
        false
        { photos := [{ year := "2025", month := "06",
                       name := "2025-06-01_080000.jpg", isDir := false }],
          audit := [] }).2.id = none ∧
    listImagesForDate (captureOnce
        { cam := some (720, 1280), saveErr := none, captureAppendOk := true,
          deletionAppendOk := true, delIso := "D" } "/root"
        { date := { y := 2025, m := 6, d := 1 }, h := 9, mi := 0, s := 0, iso := "I" }
        false
        { photos := [{ year := "2025", month := "06",
                       name := "2025-06-01_080000.jpg", isDir := false }],
          audit := [] }).1.photos { y := 2025, m := 6, d := 1 } =
      listImagesForDate
        [{ year := "2025", month := "06", name := "2025-06-01_080000.jpg",
           isDir := false }] { y := 2025, m := 6, d := 1 } :=
  captureOnce_blocked_one_per_day
    { cam := some (720, 1280), saveErr := none, captureAppendOk := true,
      deletionAppendOk := true, delIso := "D" } "/root"
    { date := { y := 2025, m := 6, d := 1 }, h := 9, mi := 0, s := 0, iso := "I" }
    { photos := [{ year := "2025", month := "06", name := "2025-06-01_080000.jpg",
                   isDir := false }],
      audit := [] }
    { year := "2025", month := "06", name := "2025-06-01_080000.jpg", isDir := false }
    rfl
